import Mathlib

/-!
Verification of the `baseball_trivia` pipeline (main.py).

The script scrapes baseball-reference.com: it enumerates inactive players,
keeps pitchers whose career started before 1953 and ended no earlier than
1966, scans every Braves season schedule (Boston / Milwaukee / Atlanta) for
losses, credits the winning pitcher when that pitcher is a candidate, and
renders a two-column HTML table.

The embedding below is a shallow one.  All remote I/O is passed in as
explicit inputs (a fetched page is just its parsed content); Python
exceptions are modelled by the `Except PyErr` monad, where returning
`Except.error` corresponds to an uncaught exception aborting the run.
Python dictionaries are modelled as insertion-ordered association lists
with unique keys (`dictSet` overwrites in place, `dictGet?` looks up).
-/

namespace Braves

/-- Python runtime exceptions that the script can raise (uncaught). -/
inductive PyErr where
  | fetchErr  -- requests.get raised (network failure / timeout)
  | attrErr   -- AttributeError, e.g. `None.tbody` or `.strip()` on a Tag
  | indexErr  -- IndexError, list or string index out of range
  | keyErr    -- KeyError, missing dictionary/attribute key
  | typeErr   -- TypeError, e.g. subscripting None
  | valueErr  -- ValueError from int()
  deriving DecidableEq, Repr

/-- A Python dict with string keys, as an insertion-ordered association
list whose keys are unique. -/
abbrev Dict (α : Type) := List (String × α)

/-- Lookup `d[k]`, `none` when the key is absent. -/
def dictGet? {α : Type} (d : Dict α) (k : String) : Option α :=
  (d.find? (fun p => p.1 == k)).map Prod.snd

/-- Assignment `d[k] = v`: overwrite in place when the key exists, else append
(Python dicts preserve insertion order). -/
def dictSet {α : Type} (d : Dict α) (k : String) (v : α) : Dict α :=
  if d.any (fun p => p.1 == k) then
    d.map (fun p => if p.1 == k then (k, v) else p)
  else d ++ [(k, v)]

/-! ### Kernel-computable Python string primitives

Core `String` operations such as `splitOn`, `trim`, `startsWith` and
`toInt?` are implemented by byte-position loops or well-founded recursion
that the kernel cannot evaluate, so the Python string methods used by
main.py are modelled by structurally recursive functions on the character
list, with the same observable behaviour. -/

/-- The whitespace stripped by Python `str.strip()`. -/
def isSpace (c : Char) : Bool :=
  c == ' ' || c == '\t' || c == '\n' || c == '\r'

/-- Python `str.strip()`. -/
def pyStrip (s : String) : String :=
  String.mk (((s.data.dropWhile isSpace).reverse.dropWhile isSpace).reverse)

/-- Worker for `str.split(sep)`; the fuel (initially the text length)
makes the recursion structural so the kernel can reduce it. -/
def splitFuel (sep : List Char) : Nat → List Char → List Char → List (List Char)
  | _, [], acc => [acc.reverse]
  | 0, l, acc => [acc.reverse ++ l]
  | fuel + 1, c :: rest, acc =>
    if sep.isPrefixOf (c :: rest) then
      acc.reverse :: splitFuel sep fuel ((c :: rest).drop sep.length) []
    else
      splitFuel sep fuel rest (c :: acc)

/-- Python `s.split(sep)` for a non-empty separator. -/
def pySplitOn (s sep : String) : List String :=
  (splitFuel sep.data s.data.length s.data []).map String.mk

/-- Python `s.startswith(pre)`. -/
def pyStartsWith (s pre : String) : Bool := pre.data.isPrefixOf s.data

/-- Python `s.endswith(suf)`. -/
def pyEndsWith (s suf : String) : Bool := suf.data.isSuffixOf s.data

/-- Digit accumulator for `int()`. -/
def parseNatFrom : List Char → Nat → Option Nat
  | [], acc => some acc
  | c :: r, acc =>
    if c.isDigit then parseNatFrom r (acc * 10 + (c.toNat - 48)) else none

/-- Python `int(s)`: surrounding whitespace allowed, optional sign, at
least one digit, ValueError (here `none`) otherwise. -/
def pyToInt? (s : String) : Option Int :=
  match (pyStrip s).data with
  | [] => none
  | '-' :: r => if r = [] then none else (parseNatFrom r 0).map (fun n => -(n : Int))
  | '+' :: r => if r = [] then none else (parseNatFrom r 0).map (fun n => (n : Int))
  | l => (parseNatFrom l 0).map (fun n => (n : Int))

/-- Base URL constant `HTML_PAGES` from main.py. -/
def HTML_PAGES : String := "https://www.baseball-reference.com"

/-- Constant `FIRST_MOVE = 1953` from main.py (year the Braves left Boston). -/
def FIRST_MOVE : Int := 1953

/-- Constant `LAST_MOVE = 1966` from main.py (year the Braves reached Atlanta). -/
def LAST_MOVE : Int := 1966

/-- The player record built by `pack_player`: partial url, display name,
first and last career years. -/
structure PlayerRec where
  link : String
  name : String
  first : Int
  last : Int
  deriving DecidableEq, Repr

/-- Model of `main.py::pack_player(link, name, years)`.

    syears = years.strip().split("-")
    first  = int(syears[0].split("(")[-1])
    last   = int(syears[1].split(")")[0])

`syears[1]` raises IndexError when the years text has no dash, and `int()`
raises ValueError on a non-numeric segment; both abort (no try/except
around this call).  No ordering check is performed on the two years. -/
def pack_player (link name years : String) : Except PyErr PlayerRec := do
  let syears := pySplitOn (pyStrip years) "-"
  let s0 ← match syears.get? 0 with
    | some s => Except.ok s
    | none => Except.error PyErr.indexErr
  let s1 ← match syears.get? 1 with
    | some s => Except.ok s
    | none => Except.error PyErr.indexErr
  let first ← match pyToInt? ((pySplitOn s0 "(").getLastD "") with
    | some n => Except.ok n
    | none => Except.error PyErr.valueErr
  let last ← match pyToInt? ((pySplitOn s1 ")").headD "") with
    | some n => Except.ok n
    | none => Except.error PyErr.valueErr
  Except.ok { link := link, name := name, first := first, last := last }

/-- Model of `main.py::pl_id`: final path segment of the link, with its file suffix
stripped (`split("/")[-1]` then `split(".")[0]`; both indexings are safe
because str.split always returns a non-empty list). -/
def pl_id (plindex : String) : String :=
  ((pySplitOn ((pySplitOn plindex "/").getLastD "") ".").headD "")

/-- A parsed markup node: either a bare string (NavigableString) or a tag
carrying an optional `href` attribute and its child nodes.  Tag names other
than the href attribute play no role in the scanned directory entries. -/
inductive Node where
  | nstr (s : String)
  | ntag (href : Option String) (children : List Node)

/-- The text of a scalar node (a tag child that is itself a tag contributes
its object identity in Python; only its role as a display name matters here,
so it is rendered as the empty string). -/
def nodeScalarText : Node → String
  | Node.nstr s => s
  | Node.ntag _ _ => ""

mutual
/-- Inner step of `entry.find(href=True)` on one node. -/
def findHrefN : Node → Option (List Node)
  | Node.nstr _ => none
  | Node.ntag (some _) ch => some ch
  | Node.ntag none ch => findHrefL ch
/-- Model of `entry.find(href=True)`: depth-first search for the first descendant tag
that has an `href` attribute; returns that tag's child list (the only use
the script makes of the found tag is `plyr_ref.contents[0]`). -/
def findHrefL : List Node → Option (List Node)
  | [] => none
  | n :: rest =>
    match findHrefN n with
    | some r => some r
    | none => findHrefL rest
end

/-- The body of the inner loop of `main.py::scan_inactive_players`, for one
`<p>` entry whose contents are `entry`:

    if len(entry.contents) < 2: continue
    plyr_ref = entry.find(href=True)
    if plyr_ref is None: continue
    try: hrefv = entry.contents[0]['href']
    except TypeError: continue
    if not hrefv.startswith("/players/"): continue
    if not hrefv.endswith(".shtml"): continue
    ppacket = pack_player(hrefv, plyr_ref.contents[0], entry.contents[1])
    retv[pl_id(hrefv)] = ppacket

Subscripting a NavigableString raises TypeError (caught: skip); a tag
without `href` raises KeyError (uncaught); `plyr_ref.contents[0]` raises
IndexError when the found tag is empty; `.strip()` inside pack_player
raises AttributeError when `entry.contents[1]` is a tag. -/
def processEntry (retv : Dict PlayerRec) (entry : List Node) :
    Except PyErr (Dict PlayerRec) :=
  match entry with
  | [] => Except.ok retv
  | [_] => Except.ok retv
  | n0 :: n1 :: rest =>
    match findHrefL (n0 :: n1 :: rest) with
    | none => Except.ok retv
    | some ch =>
      match n0 with
      | Node.nstr _ => Except.ok retv
      | Node.ntag none _ => Except.error PyErr.keyErr
      | Node.ntag (some hrefv) _ =>
        if !(pyStartsWith hrefv "/players/") then Except.ok retv
        else if !(pyEndsWith hrefv ".shtml") then Except.ok retv
        else
          match ch.get? 0 with
          | none => Except.error PyErr.indexErr
          | some nameNode =>
            match n1 with
            | Node.ntag _ _ => Except.error PyErr.attrErr
            | Node.nstr ystr => do
              let ppacket ← pack_player hrefv (nodeScalarText nameNode) ystr
              Except.ok (dictSet retv (pl_id hrefv) ppacket)

/-- Model of `main.py::scan_inactive_players`, with the 26 fetched-and-parsed letter
pages passed in as input: each page is the list of its `<p>` entries, each
entry being its list of content nodes. -/
def scan_inactive_players (pages : List (List (List Node))) :
    Except PyErr (Dict PlayerRec) :=
  pages.foldlM (fun retv page => page.foldlM processEntry retv) []

/-- A requests.Response as the script sees it: the success flag of the HTTP
status (which `requests.get` reports but never raises on) and the body
text.  main.py only ever reads `.text`. -/
structure HttpResp where
  ok : Bool
  text : String
  deriving DecidableEq, Repr

/-- Python `s.find(sub) >= 0` for a non-empty needle: `sub` occurs in `s` exactly
when splitting on it produces more than one piece. -/
def containsSub (s sub : String) : Bool :=
  (pySplitOn s sub).length > 1

/-- The player detail-page URL built inside `main.py::not_a_pit`:
built from HTML_PAGES, the id head character `initl = br_id[0]`, and the id. -/
def player_url (br_id : String) : String :=
  HTML_PAGES ++ "/players/" ++
    (match br_id.data with
     | [] => ""
     | c :: _ => String.singleton c) ++ "/" ++ br_id ++ ".shtml"

/-- Model of `main.py::not_a_pit`: fetch the player's detail page and report True
exactly when the body does not contain "Standard Pitching".  `br_id[0]`
raises IndexError on an empty id; a raising fetch propagates.  The fetch is
passed in as `fetchDetail`. -/
def not_a_pit (fetchDetail : String → Except PyErr HttpResp)
    (br_id : String) : Except PyErr Bool := do
  match br_id.data with
  | [] => Except.error PyErr.indexErr
  | _ :: _ =>
    let resp ← fetchDetail (player_url br_id)
    if !(containsSub resp.text "Standard Pitching") then Except.ok true
    else Except.ok false

/-- Model of `main.py::find_p_in_right_time_period`, with the directory-scan result
`pl_data` and the detail-page fetch passed in:

    for entry in pl_data.items():
        if entry[1]['first'] >= FIRST_MOVE: continue
        if entry[1]['last'] < LAST_MOVE: continue
        if not_a_pit(entry[0]): continue
        retpit[entry[0]] = pl_data[entry[0]]
-/
def fpStep (pl_data : Dict PlayerRec)
    (fetchDetail : String → Except PyErr HttpResp)
    (retpit : Dict PlayerRec) (entry : String × PlayerRec) :
    Except PyErr (Dict PlayerRec) :=
  if entry.2.first ≥ FIRST_MOVE then Except.ok retpit
  else if entry.2.last < LAST_MOVE then Except.ok retpit
  else do
    let napit ← not_a_pit fetchDetail entry.1
    if napit then Except.ok retpit
    else
      match dictGet? pl_data entry.1 with
      | none => Except.error PyErr.keyErr
      | some v => Except.ok (dictSet retpit entry.1 v)

/-- The loop of `find_p_in_right_time_period` over `pl_data.items()`. -/
def find_p_in_right_time_period (pl_data : Dict PlayerRec)
    (fetchDetail : String → Except PyErr HttpResp) :
    Except PyErr (Dict PlayerRec) :=
  pl_data.foldlM (fpStep pl_data fetchDetail) []

/-- One `<td>` cell of a schedule row: its text, and the value of
`cell.find('a')['href']` when the cell contains a link with an `href`
attribute (`none` means that chained access would raise). -/
structure Cell where
  text : String
  href : Option String
  deriving DecidableEq, Repr

/-- A `<tr>` game row: its list of `<td>` cells (`row.find_all('td')`). -/
structure HtmlRow where
  cells : List Cell
  deriving DecidableEq, Repr

/-- The `team_schedule` table: its `<tbody>` rows, `none` when the table
has no tbody element (so `tablev.tbody.find_all` would raise). -/
structure HtmlTable where
  tbody : Option (List HtmlRow)
  deriving DecidableEq, Repr

/-- Python `range(a, b)` over integers. -/
def pyRange (a b : Int) : List Int :=
  (List.range (b - a).toNat).map (fun i => a + Int.ofNat i)

/-- Python `enumerate`, with a starting index. -/
def pyEnumFrom {α : Type} (i : Nat) : List α → List (Nat × α)
  | [] => []
  | a :: l => (i, a) :: pyEnumFrom (i + 1) l

/-- The body of the row loop in `main.py::check_range`:

    columns = row.find_all('td')
    if len(columns) < 12: continue
    if columns[5].text.startswith("L"):
        plyrw = columns[12].find('a')['href'].split("/")[-1]
        pname = plyrw.split('.')[0]
        if pname in checker_list:
            answer[pname].append(tabbrev[count])

`columns[12]` raises IndexError when the row has exactly 12 cells;
`find('a')` returning None (or a missing href) raises on subscripting. -/
def scanRow (checker : List String) (ab : String)
    (answer : Dict (List String)) (row : HtmlRow) :
    Except PyErr (Dict (List String)) :=
  if row.cells.length < 12 then Except.ok answer
  else
    match row.cells.get? 5 with
    | none => Except.error PyErr.indexErr
    | some c5 =>
      if pyStartsWith c5.text "L" then
        match row.cells.get? 12 with
        | none => Except.error PyErr.indexErr
        | some c12 =>
          match c12.href with
          | none => Except.error PyErr.typeErr
          | some h =>
            -- plyrw/pname recompute exactly the pl_id transformation
            if pl_id h ∈ checker then
              match dictGet? answer (pl_id h) with
              | none => Except.error PyErr.keyErr
              | some lst => Except.ok (dictSet answer (pl_id h) (lst ++ [ab]))
            else Except.ok answer
      else Except.ok answer

/-- One season of `main.py::check_range`:

    tablev = get_team_game_table(yearv, tabbrev[count])
    for row in tablev.tbody.find_all('tr'): ...

`get_team_game_table` is `requests.get` (whose failure propagates through
`g`) followed by `soup.find('table', id="team_schedule")`, which yields
`none` when the page has no such table; `None.tbody` and a missing tbody
both raise AttributeError. -/
def scanSeason (checker : List String)
    (g : Int → String → Except PyErr (Option HtmlTable)) (ab : String)
    (answer : Dict (List String)) (yearv : Int) :
    Except PyErr (Dict (List String)) := do
  let tablev ← g yearv ab
  match tablev with
  | none => Except.error PyErr.attrErr
  | some t =>
    match t.tbody with
    | none => Except.error PyErr.attrErr
    | some rows => rows.foldlM (scanRow checker ab) answer

/-- The initialisation loop at the top of `main.py::check_range`:

    answer = {}
    for entry in checker_list: answer[entry] = []
-/
def initLedger (checker : List String) : Dict (List String) :=
  checker.foldl (fun d k => dictSet d k ([] : List String)) []

/-- Model of `main.py::check_range`, with the fetched-and-parsed table lookup `g`
standing for `get_team_game_table`:

    tabbrev = ['BSN', 'MLN', 'ATL']
    for count, rngvals in enumerate(yranges):
        for yearv in range(rngvals[0], rngvals[1]): ...

`tabbrev[count]` raises IndexError past the third range. -/
def eraStep (checker : List String)
    (g : Int → String → Except PyErr (Option HtmlTable))
    (answer : Dict (List String)) (ce : Nat × Int × Int) :
    Except PyErr (Dict (List String)) :=
  match ["BSN", "MLN", "ATL"].get? ce.1 with
  | none => Except.error PyErr.indexErr
  | some ab => (pyRange ce.2.1 ce.2.2).foldlM (scanSeason checker g ab) answer

/-- The era/season double loop of `check_range`. -/
def check_range (checker : List String)
    (g : Int → String → Except PyErr (Option HtmlTable))
    (yranges : List (Int × Int)) : Except PyErr (Dict (List String)) :=
  (pyEnumFrom 0 yranges).foldlM (eraStep checker g) (initLedger checker)

/-- Python `list(set(lst))`: duplicate removal (CPython's iteration order
over a small string set is unspecified; first-class order is irrelevant to
every property below, so Mathlib's dedup is used). -/
def pySet (lst : List String) : List String := lst.dedup

/-- The `full_name` dictionary lookup in `main.py::html_display`; a code
outside the three eras raises KeyError. -/
def full_name (ab : String) : Except PyErr String :=
  if ab = "BSN" then Except.ok "Boston"
  else if ab = "MLN" then Except.ok "Milwaukee"
  else if ab = "ATL" then Except.ok "Atlanta"
  else Except.error PyErr.keyErr

/-- Python `sep.join(l)`. -/
def pyJoin (sep : String) : List String → String
  | [] => ""
  | x :: xs => xs.foldl (fun acc y => acc ++ sep ++ y) x

/-- Per-pitcher body of the loop in `main.py::html_display`:

    abbrev_list = list(set(pit[1]))
    city_list = [full_name[entry] for entry in abbrev_list]
    olist = ', '.join(city_list)
    if not olist: olist = "None"
-/
def opponents_str (lst : List String) : Except PyErr String :=
  ((pySet lst).mapM full_name) >>= fun city_list =>
    Except.ok (if pyJoin ", " city_list = "" then "None"
               else pyJoin ", " city_list)

/-- Model of `main.py::html_display`, up to the pandas/file/browser output: the
two parallel columns `output["Pitcher"]` / `output["Opponents"]` are
modelled as a list of (pitcher name, opponents) rows, one row appended per
entry of `answer` (the name lookup `pdata[pit[0]]['name']` raises KeyError
when the id is not in `pdata`). -/
def html_display (answer : Dict (List String)) (pdata : Dict PlayerRec) :
    Except PyErr (List (String × String)) :=
  answer.mapM (fun pit => do
    let olist ← opponents_str pit.2
    match dictGet? pdata pit.1 with
    | none => Except.error PyErr.keyErr
    | some pr => Except.ok (pr.name, olist))

/-- The year-range derivation inside `main.py::the_search_for_all_three`:

    earliest = FIRST_MOVE - 1
    latest = LAST_MOVE
    for entry in pdata.items():
        if entry[1]['first'] < earliest: earliest = entry[1]['first']
        if entry[1]['last'] > latest: latest = entry[1]['last']
    yranges = [[earliest, FIRST_MOVE],
               [FIRST_MOVE, LAST_MOVE],
               [LAST_MOVE, latest + 1]]
-/
def searchStep (el : Int × Int) (entry : String × PlayerRec) : Int × Int :=
  (if entry.2.first < el.1 then entry.2.first else el.1,
   if entry.2.last > el.2 then entry.2.last else el.2)

/-- The `(earliest, latest)` pair computed by the loop above. -/
def search_minmax (pdata : Dict PlayerRec) : Int × Int :=
  pdata.foldl searchStep (FIRST_MOVE - 1, LAST_MOVE)

/-- The `yranges` list built from `(earliest, latest) = search_minmax`. -/
def the_search_yranges (pdata : Dict PlayerRec) : List (Int × Int) :=
  [((search_minmax pdata).1, FIRST_MOVE), (FIRST_MOVE, LAST_MOVE),
   (LAST_MOVE, (search_minmax pdata).2 + 1)]

/-- Modelled from the spec: "the candidates' minimum firstYear" (the
minimum of `firstYear` over a non-empty candidate mapping; 0 for the empty
one, which the covering claim excludes). -/
def spec_min_first : Dict PlayerRec → Int
  | [] => 0
  | e :: rest => rest.foldl (fun m x => min m x.2.first) e.2.first

/-- Modelled from the spec: "the candidates' maximum lastYear". -/
def spec_max_last : Dict PlayerRec → Int
  | [] => 0
  | e :: rest => rest.foldl (fun m x => max m x.2.last) e.2.last

/-- The eligibility test of `find_p_in_right_time_period` as a pure
predicate over one directory entry, given the page contents `r`: career
window satisfied and the detail page shows the pitching-statistics
marker. -/
def eligible (r : String → HttpResp) (e : String × PlayerRec) : Bool :=
  decide (e.2.first < FIRST_MOVE) && decide (LAST_MOVE ≤ e.2.last) &&
    containsSub (r (player_url e.1)).text "Standard Pitching"

/-! ### Concrete fixtures used by the claim theorems below -/

/-! ### Schedule-page fixtures -/

/-- A blank `<td>` cell. -/
def blankCell : Cell := { text := "", href := none }

/-- A result-indicator cell whose text starts with the loss marker. -/
def lossCell : Cell := { text := "L 3-7", href := none }

/-- A winning-pitcher cell whose credited-pitcher link names roberro01. -/
def winCell : Cell := { text := "", href := some "/players/r/roberro01.shtml" }

/-- A game row with exactly 12 structural cells, the 6th being a loss. -/
def row12 : HtmlRow :=
  { cells := List.replicate 5 blankCell ++ [lossCell] ++ List.replicate 6 blankCell }

/-- A loss row with 13 cells whose winning-pitcher column credits
roberro01. -/
def lossRow13 : HtmlRow :=
  { cells := List.replicate 5 blankCell ++ [lossCell] ++
      List.replicate 6 blankCell ++ [winCell] }

/-- Table lookup stub: every schedule page parses but contains no
`team_schedule` table. -/
def gNoTable : Int → String → Except PyErr (Option HtmlTable) :=
  fun _ _ => Except.ok none

/-- Table lookup stub: every schedule page has a table whose single row has
exactly 12 cells and marks a loss. -/
def gTwelveCells : Int → String → Except PyErr (Option HtmlTable) :=
  fun _ _ => Except.ok (some { tbody := some [row12] })

/-- Table lookup stub: every schedule page shows one loss credited to
roberro01. -/
def gDupWin : Int → String → Except PyErr (Option HtmlTable) :=
  fun _ _ => Except.ok (some { tbody := some [lossRow13] })

/-- The reversed record accepted by the directory scan below. -/
def packedReversed : PlayerRec :=
  { link := "/players/x/xxxxx01.shtml", name := "Xavier X",
    first := 1960, last := 1950 }

/-- A well-shaped directory entry whose years text is reversed. -/
def reversedYearsEntry : List Node :=
  [Node.ntag (some "/players/x/xxxxx01.shtml") [Node.nstr "Xavier X"],
   Node.nstr " (1960-1950)"]

/-- The response of a failed page request as `requests.get` returns it: a
non-success status (`ok = false`) whose body is an error page; no exception
is raised. -/
def respNotFound : HttpResp := { ok := false, text := "404 - File Not Found" }

/-- Fetch stub returning the non-success response for every URL. -/
def fetchNotFound : String → Except PyErr HttpResp :=
  fun _ => Except.ok respNotFound

/-- A candidate surviving the career window. -/
def robinRec : PlayerRec :=
  { link := "/players/r/roberro01.shtml", name := "Robin Roberts",
    first := 1948, last := 1966 }

/-- Table lookup stub: every schedule page has a results table with an
empty body (a season with no game rows). -/
def gEmptyTbody : Int → String → Except PyErr (Option HtmlTable) :=
  fun _ _ => Except.ok (some { tbody := some [] })

/-- The boundary candidate: career 1952-1966 (included). -/
def recBoundaryIn : PlayerRec :=
  { link := "/players/a/aaaaa01.shtml", name := "A",
    first := 1952, last := 1966 }

/-- The boundary non-candidate: career 1953-1966 (excluded). -/
def recBoundaryOut : PlayerRec :=
  { link := "/players/b/bbbbb01.shtml", name := "B",
    first := 1953, last := 1966 }

/-- Two boundary players around FIRST_MOVE. -/
def pdBoundary : Dict PlayerRec :=
  [("aaaaa01", recBoundaryIn), ("bbbbb01", recBoundaryOut)]

/-- Fetch content stub: every detail page shows pitching statistics. -/
def rPitchPage : String → HttpResp :=
  fun _ => { ok := true, text := "xx Standard Pitching xx" }

/-- The `earliest` update of the loop, on its own. -/
def minStep (m : Int) (x : String × PlayerRec) : Int :=
  if x.2.first < m then x.2.first else m

/-- The `latest` update of the loop, on its own. -/
def maxStep (m : Int) (x : String × PlayerRec) : Int :=
  if x.2.last > m then x.2.last else m

/-- The single pitcher of the C9 witness run. -/
def pitcherXRec : PlayerRec :=
  { link := "/players/x/xxpit01.shtml", name := "Pitcher X",
    first := 1950, last := 1966 }

/-! ### Infrastructure lemmas about the embedding's monadic plumbing -/

@[simp] theorem error_bind {E α β : Type} (e : E) (f : α → Except E β) :
    (Except.error e : Except E α) >>= f = Except.error e := rfl

@[simp] theorem ok_bind {E α β : Type} (a : α) (f : α → Except E β) :
    (Except.ok a : Except E α) >>= f = f a := rfl

@[simp] theorem pure_eq_ok {E α : Type} (a : α) :
    (pure a : Except E α) = Except.ok a := rfl

/-- An invariant that every successful step keeps is kept by a successful
monadic fold. -/
theorem foldlM_ok_preserve {α β E : Type} {f : β → α → Except E β}
    (Q : β → Prop) (hf : ∀ b a b2, f b a = Except.ok b2 → Q b → Q b2) :
    ∀ (l : List α) (b b2 : β), l.foldlM f b = Except.ok b2 → Q b → Q b2
  | [], b, b2, h, hQ => by
    rw [List.foldlM_nil] at h
    cases h
    exact hQ
  | a :: l, b, b2, h, hQ => by
    rw [List.foldlM_cons] at h
    cases hfa : f b a with
    | error e => rw [hfa, error_bind] at h; cases h
    | ok b1 =>
      rw [hfa, ok_bind] at h
      exact foldlM_ok_preserve Q hf l b1 b2 h (hf b a b1 hfa hQ)

/-- A successful `mapM` maps positions pointwise. -/
theorem mapM_ok_get {α β E : Type} {f : α → Except E β} :
    ∀ (l : List α) (r : List β) (i : Nat) (a : α),
      l.mapM f = Except.ok r → l.get? i = some a →
      ∃ b, r.get? i = some b ∧ f a = Except.ok b
  | [], r, i, a, h, hi => by cases i <;> cases hi
  | x :: l, r, i, a, h, hi => by
    rw [List.mapM_cons] at h
    cases hfx : f x with
    | error e => rw [hfx, error_bind] at h; cases h
    | ok b =>
      rw [hfx, ok_bind] at h
      cases hml : l.mapM f with
      | error e => rw [hml, error_bind] at h; cases h
      | ok rl =>
        rw [hml, ok_bind] at h
        cases h
        cases i with
        | zero => cases hi; exact ⟨b, rfl, hfx⟩
        | succ j => exact mapM_ok_get l rl j a hml hi

/-- A successful `mapM` preserves length. -/
theorem mapM_ok_length {α β E : Type} {f : α → Except E β} :
    ∀ (l : List α) (r : List β), l.mapM f = Except.ok r → r.length = l.length
  | [], r, h => by
    rw [List.mapM_nil] at h; cases h; rfl
  | x :: l, r, h => by
    rw [List.mapM_cons] at h
    cases hfx : f x with
    | error e => rw [hfx, error_bind] at h; cases h
    | ok b =>
      rw [hfx, ok_bind] at h
      cases hml : l.mapM f with
      | error e => rw [hml, error_bind] at h; cases h
      | ok rl =>
        rw [hml, ok_bind] at h
        cases h
        simp [mapM_ok_length l rl hml]

/-- Every element of a successful `mapM`'s output comes from an input
element. -/
theorem mapM_ok_mem {α β E : Type} {f : α → Except E β} :
    ∀ (l : List α) (r : List β) (b : β), l.mapM f = Except.ok r → b ∈ r →
      ∃ a ∈ l, f a = Except.ok b
  | [], r, b, h, hb => by
    rw [List.mapM_nil] at h; cases h; cases hb
  | x :: l, r, b, h, hb => by
    rw [List.mapM_cons] at h
    cases hfx : f x with
    | error e => rw [hfx, error_bind] at h; cases h
    | ok b1 =>
      rw [hfx, ok_bind] at h
      cases hml : l.mapM f with
      | error e => rw [hml, error_bind] at h; cases h
      | ok rl =>
        rw [hml, ok_bind] at h
        cases h
        rcases List.mem_cons.mp hb with hb1 | hbrl
        · exact ⟨x, List.mem_cons_self x l, hb1 ▸ hfx⟩
        · rcases mapM_ok_mem l rl b hml hbrl with ⟨a, hal, hfa⟩
          exact ⟨a, List.mem_cons_of_mem x hal, hfa⟩

/-! ### Dictionary lemmas -/

theorem dict_any_iff {α : Type} (d : Dict α) (k : String) :
    (d.any (fun p => p.1 == k)) = true ↔ k ∈ d.map Prod.fst := by
  simp [List.any_eq_true, List.mem_map]

/-- Overwriting an existing key leaves the key list unchanged. -/
theorem dictSet_keys_of_mem {α : Type} (d : Dict α) (k : String) (v : α)
    (h : k ∈ d.map Prod.fst) :
    (dictSet d k v).map Prod.fst = d.map Prod.fst := by
  unfold dictSet
  rw [if_pos ((dict_any_iff d k).mpr h)]
  rw [List.map_map]
  apply List.map_congr_left
  intro p _
  by_cases hk : p.1 = k
  · simp [hk]
  · simp [hk]

/-- Inserting a fresh key appends it. -/
theorem dictSet_of_not_mem {α : Type} (d : Dict α) (k : String) (v : α)
    (h : ¬ k ∈ d.map Prod.fst) : dictSet d k v = d ++ [(k, v)] := by
  unfold dictSet
  rw [if_neg (fun ha => h ((dict_any_iff d k).mp ha))]

/-- A successful lookup means the key is present. -/
theorem dictGet?_mem {α : Type} (d : Dict α) (k : String) (v : α)
    (h : dictGet? d k = some v) : k ∈ d.map Prod.fst := by
  unfold dictGet? at h
  cases hf : d.find? (fun p => p.1 == k) with
  | none => rw [hf] at h; cases h
  | some p =>
    rw [hf] at h
    have hp := List.find?_some hf
    have hmem := List.mem_of_find?_eq_some hf
    simp at hp
    exact hp ▸ List.mem_map_of_mem Prod.fst hmem

/-- With unique keys, looking up a member entry returns its value. -/
theorem dictGet?_of_mem {α : Type} :
    ∀ (d : Dict α) (k : String) (v : α), (d.map Prod.fst).Nodup →
      (k, v) ∈ d → dictGet? d k = some v
  | [], k, v, _, hm => by cases hm
  | p :: d, k, v, hnd, hm => by
    rcases List.mem_cons.mp hm with h1 | h2
    · cases h1
      unfold dictGet?
      rw [List.find?_cons_of_pos _ (by simp)]
      rfl
    · have hk : p.1 ≠ k := by
        intro he
        have : k ∈ d.map Prod.fst := List.mem_map_of_mem Prod.fst h2
        rw [List.map_cons] at hnd
        exact (List.nodup_cons.mp hnd).1 (he ▸ this)
      unfold dictGet?
      rw [List.find?_cons_of_neg _ (by simp [hk])]
      exact dictGet?_of_mem d k v (by rw [List.map_cons] at hnd; exact (List.nodup_cons.mp hnd).2) h2

/-- Bind of an error is the error (Except monad). -/
theorem bind_of_error {E α β : Type} {x : Except E α} {e : E}
    (f : α → Except E β) (h : x = Except.error e) :
    x >>= f = Except.error e := by
  rw [h]; rfl

/-- Python `range(a, b)` with `a < b` starts at `a`. -/
theorem pyRange_cons (a b : Int) (h : a < b) :
    pyRange a b = a :: pyRange (a + 1) b := by
  unfold pyRange
  have h1 : (b - a).toNat = (b - (a + 1)).toNat + 1 := by omega
  rw [h1, List.range_succ_eq_map, List.map_cons, List.map_map]
  congr 1
  · simp
  · apply List.map_congr_left
    intro i _
    simp only [Function.comp_apply]
    rw [show Int.ofNat i.succ = Int.ofNat i + 1 from rfl]
    ring

/-- C1 (counterexample): the claim says a fetched schedule page with no
recognizable results table contributes zero rows and the scan continues; on
the code, scanning a single season whose table lookup yields nothing makes
`check_range` dereference the missing table (`tablev.tbody`) and abort the
whole run with an AttributeError — it returns no ledger at all. -/
theorem check_range_no_table_counterexample :
    check_range ["roberro01"] gNoTable [(1952, 1953)] =
      Except.error PyErr.attrErr := by
  rfl

/-- C1 (amended): a season whose schedule page has no recognizable results
table is not treated as zero rows — as soon as the table lookup for the
first scanned season yields nothing, `check_range` aborts the entire run
with an AttributeError, and no later season is scanned. -/
theorem check_range_no_table_aborts (checker : List String)
    (g : Int → String → Except PyErr (Option HtmlTable))
    (a b : Int) (yrs : List (Int × Int))
    (hab : a < b) (hg : g a "BSN" = Except.ok none) :
    check_range checker g ((a, b) :: yrs) = Except.error PyErr.attrErr := by
  unfold check_range
  rw [show pyEnumFrom 0 ((a, b) :: yrs) = (0, (a, b)) :: pyEnumFrom 1 yrs from rfl]
  rw [List.foldlM_cons]
  apply bind_of_error
  show (pyRange a b).foldlM (scanSeason checker g "BSN") (initLedger checker) =
    Except.error PyErr.attrErr
  rw [pyRange_cons a b hab, List.foldlM_cons]
  apply bind_of_error
  show (do
    let tablev ← g a "BSN"
    match tablev with
    | none => Except.error PyErr.attrErr
    | some t =>
      match t.tbody with
      | none => Except.error PyErr.attrErr
      | some rows => rows.foldlM (scanRow checker "BSN") (initLedger checker))
    = Except.error PyErr.attrErr
  rw [hg]
  rfl

/-- C1 (witness): a concrete one-season run with a missing table aborts. -/
theorem check_range_no_table_aborts_wit :
    (1952 : Int) < 1953 ∧ gNoTable 1952 "BSN" = Except.ok none ∧
    check_range ["spahnwa01"] gNoTable [(1952, 1953)] =
      Except.error PyErr.attrErr :=
  ⟨by decide, rfl, check_range_no_table_aborts ["spahnwa01"] gNoTable
    1952 1953 [] (by decide) rfl⟩

/-- C2 (code bug): the cell-count guard `len(columns) < 12` admits rows with
exactly 12 cells, but the winning-pitcher read is `columns[12]`, the 13th
cell.  On a loss row with exactly 12 cells the scan indexes past the end of
the row's cell list and the run aborts with an IndexError. -/
theorem check_range_twelve_cell_row_index_error :
    check_range ["roberro01"] gTwelveCells [(1952, 1953)] =
      Except.error PyErr.indexErr := by
  rfl

/-- C3 (counterexample): two losses to the same candidate pitcher in two
different seasons of the same era make the ledger built by `check_range`
list that era's code twice — the WinLedger as built by the Schedule Scanner
has list semantics, not set semantics. -/
theorem check_range_duplicate_era_counterexample :
    check_range ["roberro01"] gDupWin [(1950, 1952)] =
      Except.ok [("roberro01", ["BSN", "BSN"])] := by
  rfl

/-- C8 (counterexample): a directory entry whose years segment reads
"(1960-1950)" passes every acceptance check of the Directory Scanner and
produces a PlayerRecord with firstYear = 1960 > lastYear = 1950 — reversed
bounds are neither rejected nor a loud failure. -/
theorem scan_accepts_reversed_years :
    scan_inactive_players [[reversedYearsEntry]] =
      Except.ok [("xxxxx01", packedReversed)] ∧
    packedReversed.last < packedReversed.first :=
  ⟨by rfl, by decide⟩

/-- C8 (amended): `pack_player` copies the two year segments exactly as
written and never compares them, so an accepted entry satisfies
firstYear ≤ lastYear only when the years text itself is ordered; the parser
does fail loudly on a years text with no dash (IndexError) or with a
non-numeric segment (ValueError). -/
theorem pack_player_no_order_check :
    pack_player "/players/x/xxxxx01.shtml" "X" "(1950-1960)" =
      Except.ok { link := "/players/x/xxxxx01.shtml", name := "X",
                  first := 1950, last := 1960 } ∧
    pack_player "/players/x/xxxxx01.shtml" "X" "(1960-1950)" =
      Except.ok { link := "/players/x/xxxxx01.shtml", name := "X",
                  first := 1960, last := 1950 } ∧
    pack_player "/players/x/xxxxx01.shtml" "X" "1950" =
      Except.error PyErr.indexErr ∧
    pack_player "/players/x/xxxxx01.shtml" "X" "(19x0-1950)" =
      Except.error PyErr.valueErr :=
  ⟨by rfl, by rfl, by rfl, by rfl⟩

/-! ### C10: bounds of the derived year ranges -/

theorem search_fold_bounds :
    ∀ (l : Dict PlayerRec) (init : Int × Int),
      (List.foldl searchStep init l).1 ≤ init.1 ∧
      init.2 ≤ (List.foldl searchStep init l).2
  | [], init => ⟨le_refl _, le_refl _⟩
  | e :: l, init => by
    have ih := search_fold_bounds l (searchStep init e)
    rw [List.foldl_cons]
    refine ⟨le_trans ih.1 ?_, le_trans ?_ ih.2⟩
    · unfold searchStep
      dsimp only
      split <;> omega
    · unfold searchStep
      dsimp only
      split <;> omega

/-- C10: whatever the candidate mapping (the empty one included), the
derived `earliest` is at most FIRST_MOVE - 1 and the derived `latest` at
least LAST_MOVE, so every one of the three era ranges is non-empty, and the
middle range is always exactly [FIRST_MOVE, LAST_MOVE). -/
theorem yranges_always_bounded (pdata : Dict PlayerRec) :
    (search_minmax pdata).1 ≤ FIRST_MOVE - 1 ∧
    LAST_MOVE ≤ (search_minmax pdata).2 ∧
    (∀ r ∈ the_search_yranges pdata, r.1 < r.2) ∧
    (the_search_yranges pdata).get? 1 = some (FIRST_MOVE, LAST_MOVE) := by
  have hb := search_fold_bounds pdata (FIRST_MOVE - 1, LAST_MOVE)
  have h1 : (search_minmax pdata).1 ≤ FIRST_MOVE - 1 := hb.1
  have h2 : LAST_MOVE ≤ (search_minmax pdata).2 := hb.2
  refine ⟨h1, h2, ?_, rfl⟩
  intro r hr
  unfold the_search_yranges at hr
  rcases List.mem_cons.mp hr with h | hr2
  · rw [h]
    dsimp only
    unfold FIRST_MOVE at h1 ⊢
    omega
  rcases List.mem_cons.mp hr2 with h | hr3
  · rw [h]
    unfold FIRST_MOVE LAST_MOVE
    omega
  rcases List.mem_cons.mp hr3 with h | hr4
  · rw [h]
    dsimp only
    unfold LAST_MOVE at h2 ⊢
    omega
  · cases hr4

/-! ### C3 (amended): deduplication happens at rendering time -/

/-- The only successful `full_name` lookups are the three era codes. -/
theorem full_name_ok_cases {a c : String} (h : full_name a = Except.ok c) :
    (a = "BSN" ∧ c = "Boston") ∨ (a = "MLN" ∧ c = "Milwaukee") ∨
    (a = "ATL" ∧ c = "Atlanta") := by
  unfold full_name at h
  split_ifs at h with h1 h2 h3 <;> cases h
  · exact Or.inl ⟨h1, rfl⟩
  · exact Or.inr (Or.inl ⟨h2, rfl⟩)
  · exact Or.inr (Or.inr ⟨h3, rfl⟩)

/-- The mapping `full_name` is injective on its successful inputs. -/
theorem full_name_inj {a b c : String} (ha : full_name a = Except.ok c)
    (hb : full_name b = Except.ok c) : a = b := by
  rcases full_name_ok_cases ha with ⟨h1, h2⟩ | ⟨h1, h2⟩ | ⟨h1, h2⟩ <;>
    rcases full_name_ok_cases hb with ⟨h3, h4⟩ | ⟨h3, h4⟩ | ⟨h3, h4⟩ <;>
    subst h1 <;> subst h3 <;> first
      | rfl
      | (exfalso; rw [h2] at h4; exact absurd h4 (by decide))

/-- A successful city lookup never yields the empty string. -/
theorem full_name_ok_ne_empty {a c : String} (h : full_name a = Except.ok c) :
    c ≠ "" := by
  rcases full_name_ok_cases h with ⟨_, h2⟩ | ⟨_, h2⟩ | ⟨_, h2⟩ <;>
    (rw [h2]; decide)

/-- Mapping `full_name` over a duplicate-free code list yields a
duplicate-free city list. -/
theorem mapM_full_name_nodup :
    ∀ (l : List String) (r : List String), l.Nodup →
      l.mapM full_name = Except.ok r → r.Nodup
  | [], r, _, h => by
    rw [List.mapM_nil] at h; cases h; exact List.nodup_nil
  | a :: l, r, hnd, h => by
    rw [List.mapM_cons] at h
    cases hfa : full_name a with
    | error e => rw [hfa, error_bind] at h; cases h
    | ok c =>
      rw [hfa, ok_bind] at h
      cases hml : l.mapM full_name with
      | error e => rw [hml, error_bind] at h; cases h
      | ok rl =>
        rw [hml, ok_bind] at h
        cases h
        refine List.nodup_cons.mpr ⟨?_, mapM_full_name_nodup l rl
          (List.nodup_cons.mp hnd).2 hml⟩
        intro hc
        rcases mapM_ok_mem l rl c hml hc with ⟨b, hbl, hfb⟩
        exact (List.nodup_cons.mp hnd).1 (full_name_inj hfa hfb ▸ hbl)

/-- The `', '.join` of a list with a non-empty head is non-empty. -/
theorem pyJoin_len :
    ∀ (rest : List String) (acc : String),
      acc.length ≤ (rest.foldl (fun a y => a ++ ", " ++ y) acc).length
  | [], acc => le_refl _
  | y :: rest, acc => by
    rw [List.foldl_cons]
    refine le_trans ?_ (pyJoin_len rest (acc ++ ", " ++ y))
    simp [String.length_append]
    omega

theorem pyJoin_ne_empty (c : String) (rest : List String) (hc : c ≠ "") :
    pyJoin ", " (c :: rest) ≠ "" := by
  intro h
  have hEq : pyJoin ", " (c :: rest) =
      rest.foldl (fun a y => a ++ ", " ++ y) c := rfl
  rw [hEq] at h
  have h1 : c.length ≤ (0 : Nat) := by
    have := pyJoin_len rest c
    rw [h] at this
    simpa using this
  have h2 : c.length = 0 := Nat.le_zero.mp h1
  exact hc (by cases c with
    | mk data =>
      cases data with
      | nil => rfl
      | cons x xs => simp [String.length, List.length] at h2)

/-- What `opponents_str` returns, given the mapped city list. -/
theorem opponents_str_spec (lst cl : List String)
    (h : (pySet lst).mapM full_name = Except.ok cl) :
    opponents_str lst = Except.ok (if cl = [] then "None" else pyJoin ", " cl) := by
  unfold opponents_str
  rw [h, ok_bind]
  cases cl with
  | nil => rfl
  | cons c rest =>
    have hc : c ≠ "" := by
      rcases mapM_ok_mem (pySet lst) (c :: rest) c h (List.mem_cons_self c rest)
        with ⟨a, _, hfa⟩
      exact full_name_ok_ne_empty hfa
    rw [if_neg (List.cons_ne_nil c rest), if_neg (pyJoin_ne_empty c rest hc)]

/-- C3 (amended): the ledger built by `check_range` is a list that records
one entry per matching loss row, so an era's code can appear several times
for the same pitcher; the rendering step deduplicates it (`list(set(...))`
in `html_display`), so each rendered city list is duplicate-free and the
opponents column joins each defeated era's city exactly once. -/
theorem rendered_eras_nodup (lst cl : List String)
    (h : (pySet lst).mapM full_name = Except.ok cl) :
    cl.Nodup ∧
    opponents_str lst = Except.ok (if cl = [] then "None" else pyJoin ", " cl) :=
  ⟨mapM_full_name_nodup (pySet lst) cl (List.nodup_dedup lst) h,
   opponents_str_spec lst cl h⟩

/-- C3 (amended, witness): the duplicated ledger entry ["BSN", "BSN"] of the
counterexample renders as the single city "Boston". -/
theorem rendered_eras_nodup_wit :
    (pySet ["BSN", "BSN"]).mapM full_name = Except.ok ["Boston"] ∧
    (["Boston"] : List String).Nodup ∧
    opponents_str ["BSN", "BSN"] = Except.ok "Boston" :=
  ⟨by rfl,
   (rendered_eras_nodup ["BSN", "BSN"] ["Boston"] (by rfl)).1,
   ((rendered_eras_nodup ["BSN", "BSN"] ["Boston"] (by rfl)).2).trans (by rfl)⟩

/-! ### C4: fetch failures in the eligibility filter -/

/-- C4 (counterexample): when the detail page of a window-surviving
candidate comes back with a non-success HTTP status, the filter does not
fail the run — `requests.get` raises nothing, the error body is searched
for the pitching marker, `not_a_pit` is True and the player is silently
dropped from the candidate set: the filter returns an empty mapping, not a
hard failure. -/
theorem find_p_nonsuccess_status_dropped :
    respNotFound.ok = false ∧
    find_p_in_right_time_period [("roberro01", robinRec)] fetchNotFound =
      Except.ok [] :=
  ⟨rfl, by rfl⟩

/-- C4 (amended): a network-level fetch failure (an exception raised by the
HTTP get) while confirming any window-surviving candidate propagates as a
hard failure of the whole run. -/
theorem find_p_network_error_propagates (pl_data : Dict PlayerRec) (e : PyErr)
    (hne : ∀ x ∈ pl_data, x.1.data ≠ [])
    (hs : ∃ x ∈ pl_data, x.2.first < FIRST_MOVE ∧ LAST_MOVE ≤ x.2.last) :
    find_p_in_right_time_period pl_data (fun _ => Except.error e) =
      Except.error e := by
  unfold find_p_in_right_time_period
  have key : ∀ (l : List (String × PlayerRec)) (acc : Dict PlayerRec),
      (∀ x ∈ l, x.1.data ≠ []) →
      (∃ x ∈ l, x.2.first < FIRST_MOVE ∧ LAST_MOVE ≤ x.2.last) →
      l.foldlM (fpStep pl_data (fun _ => Except.error e)) acc =
        Except.error e := by
    intro l
    induction l with
    | nil => intro acc _ hs2; simp at hs2
    | cons x l ih =>
      intro acc hne2 hs2
      rw [List.foldlM_cons]
      by_cases h1 : x.2.first ≥ FIRST_MOVE
      · have hstep : fpStep pl_data (fun _ => Except.error e) acc x =
            Except.ok acc := by
          unfold fpStep; rw [if_pos h1]
        rw [hstep, ok_bind]
        apply ih acc (fun y hy => hne2 y (List.mem_cons_of_mem x hy))
        rcases hs2 with ⟨x0, hx0, hw⟩
        rcases List.mem_cons.mp hx0 with rfl | hx0l
        · exact absurd hw.1 (by omega)
        · exact ⟨x0, hx0l, hw⟩
      by_cases h2 : x.2.last < LAST_MOVE
      · have hstep : fpStep pl_data (fun _ => Except.error e) acc x =
            Except.ok acc := by
          unfold fpStep; rw [if_neg h1, if_pos h2]
        rw [hstep, ok_bind]
        apply ih acc (fun y hy => hne2 y (List.mem_cons_of_mem x hy))
        rcases hs2 with ⟨x0, hx0, hw⟩
        rcases List.mem_cons.mp hx0 with rfl | hx0l
        · exact absurd hw.2 (by omega)
        · exact ⟨x0, hx0l, hw⟩
      · have hx : x.1.data ≠ [] := hne2 x (List.mem_cons_self x l)
        have hstep : fpStep pl_data (fun _ => Except.error e) acc x =
            Except.error e := by
          unfold fpStep
          rw [if_neg h1, if_neg h2]
          unfold not_a_pit
          cases hd : x.1.data with
          | nil => exact absurd hd hx
          | cons c cs => rfl
        rw [hstep, error_bind]
  exact key pl_data [] hne hs

/-- C4 (amended, witness): a raising fetch for Robin Roberts' page aborts
the filter with that error. -/
theorem find_p_network_error_propagates_wit :
    (∀ x ∈ [("roberro01", robinRec)], x.1.data ≠ []) ∧
    (∃ x ∈ [("roberro01", robinRec)],
      x.2.first < FIRST_MOVE ∧ LAST_MOVE ≤ x.2.last) ∧
    find_p_in_right_time_period [("roberro01", robinRec)]
      (fun _ => Except.error PyErr.fetchErr) = Except.error PyErr.fetchErr :=
  ⟨by decide, by decide,
   find_p_network_error_propagates [("roberro01", robinRec)] PyErr.fetchErr
     (by decide) (by decide)⟩

/-! ### C7: the ledger's keys are exactly the candidate ids -/

theorem initLedger_keys :
    ∀ (cs : List String) (d : Dict (List String)), cs.Nodup →
      (∀ k ∈ cs, ¬ k ∈ d.map Prod.fst) →
      (cs.foldl (fun d2 k => dictSet d2 k ([] : List String)) d).map Prod.fst =
        d.map Prod.fst ++ cs
  | [], d, _, _ => by simp
  | c :: cs, d, hnd, hdisj => by
    rw [List.foldl_cons]
    have hc : ¬ c ∈ d.map Prod.fst := hdisj c (List.mem_cons_self c cs)
    have hdisj2 : ∀ k ∈ cs, ¬ k ∈ (dictSet d c []).map Prod.fst := by
      intro k hk
      rw [dictSet_of_not_mem d c [] hc, List.map_append]
      intro hmem
      rcases List.mem_append.mp hmem with hk1 | hk2
      · exact hdisj k (List.mem_cons_of_mem c hk) hk1
      · have hkc : k = c := by simpa using hk2
        exact (List.nodup_cons.mp hnd).1 (hkc ▸ hk)
    rw [initLedger_keys cs (dictSet d c []) (List.nodup_cons.mp hnd).2 hdisj2]
    rw [dictSet_of_not_mem d c [] hc, List.map_append]
    simp

/-- One row scan never changes the ledger's key list. -/
theorem scanRow_keys (checker : List String) (ab : String)
    (d d2 : Dict (List String)) (row : HtmlRow)
    (h : scanRow checker ab d row = Except.ok d2) :
    d2.map Prod.fst = d.map Prod.fst := by
  unfold scanRow at h
  split at h
  · cases h; rfl
  · split at h
    · cases h
    · split at h
      · split at h
        · cases h
        · split at h
          · cases h
          · split at h
            · split at h
              · cases h
              · rename_i lst hget
                cases h
                exact dictSet_keys_of_mem d _ _ (dictGet?_mem d _ lst hget)
            · cases h; rfl
      · cases h; rfl

/-- One season scan never changes the ledger's key list. -/
theorem scanSeason_keys (checker : List String)
    (g : Int → String → Except PyErr (Option HtmlTable)) (ab : String)
    (d d2 : Dict (List String)) (y : Int)
    (h : scanSeason checker g ab d y = Except.ok d2) :
    d2.map Prod.fst = d.map Prod.fst := by
  unfold scanSeason at h
  cases hg : g y ab with
  | error e => rw [hg, error_bind] at h; cases h
  | ok tablev =>
    rw [hg, ok_bind] at h
    cases tablev with
    | none => cases h
    | some t =>
      obtain ⟨tb⟩ := t
      cases tb with
      | none => cases h
      | some rows =>
        exact foldlM_ok_preserve (fun x => x.map Prod.fst = d.map Prod.fst)
          (fun b a b2 hs hq => (scanRow_keys checker ab b b2 a hs).trans hq)
          rows d d2 h rfl

/-- C7: whenever the scan completes, the ledger returned by `check_range`
has exactly the candidate id list as its keys, in order: every candidate
is a key (initialised to the empty win list before scanning), and no key
outside the candidate set is ever added. -/
theorem check_range_keys_eq_checker (checker : List String)
    (g : Int → String → Except PyErr (Option HtmlTable))
    (yranges : List (Int × Int)) (ledger : Dict (List String))
    (hnd : checker.Nodup)
    (h : check_range checker g yranges = Except.ok ledger) :
    ledger.map Prod.fst = checker := by
  unfold check_range at h
  have hinit : (initLedger checker).map Prod.fst = checker := by
    have := initLedger_keys checker [] hnd (by simp)
    simpa [initLedger] using this
  refine foldlM_ok_preserve (fun x => x.map Prod.fst = checker) ?_ _ _ _ h hinit
  intro b a b2 hstep hQ
  unfold eraStep at hstep
  cases hab : (["BSN", "MLN", "ATL"] : List String).get? a.1 with
  | none => rw [hab] at hstep; cases hstep
  | some ab =>
    rw [hab] at hstep
    refine (foldlM_ok_preserve (fun x => x.map Prod.fst = b.map Prod.fst)
      (fun c y c2 hs hq => (scanSeason_keys checker g ab c c2 y hs).trans hq)
      _ b b2 hstep rfl).trans hQ

/-- C7 (witness): a concrete completed scan over two candidates has exactly
those two ids as ledger keys, each with an empty win list. -/
theorem check_range_keys_eq_checker_wit :
    (["spahnwa01", "roberro01"] : List String).Nodup ∧
    check_range ["spahnwa01", "roberro01"] gEmptyTbody [(1952, 1953)] =
      Except.ok [("spahnwa01", []), ("roberro01", [])] ∧
    ([("spahnwa01", ([] : List String)), ("roberro01", [])].map Prod.fst) =
      ["spahnwa01", "roberro01"] :=
  ⟨by decide, by rfl,
   check_range_keys_eq_checker ["spahnwa01", "roberro01"] gEmptyTbody
     [(1952, 1953)] [("spahnwa01", []), ("roberro01", [])]
     (by decide) (by rfl)⟩

/-! ### C5: exactness of the eligibility filter -/

/-- With a succeeding fetch, `not_a_pit` reports exactly the absence of the
pitching-statistics marker from the detail page. -/
theorem not_a_pit_fetch_ok (r : String → HttpResp) (id : String)
    (c : Char) (cs : List Char) (hd : id.data = c :: cs) :
    not_a_pit (fun u => Except.ok (r u)) id =
      Except.ok (!(containsSub (r (player_url id)).text "Standard Pitching")) := by
  unfold not_a_pit
  rw [hd]
  show (if (!containsSub (r (player_url id)).text "Standard Pitching") = true
      then (Except.ok true : Except PyErr Bool) else Except.ok false) =
    Except.ok (!containsSub (r (player_url id)).text "Standard Pitching")
  cases hb : containsSub (r (player_url id)).text "Standard Pitching" with
  | false => rfl
  | true => rfl

theorem find_p_go_filter (pl_data : Dict PlayerRec) (r : String → HttpResp) :
    ∀ (l : List (String × PlayerRec)) (acc : Dict PlayerRec),
      (∀ x ∈ l, dictGet? pl_data x.1 = some x.2) →
      (∀ x ∈ l, x.1.data ≠ []) →
      (l.map Prod.fst).Nodup →
      (∀ x ∈ l, ¬ x.1 ∈ acc.map Prod.fst) →
      l.foldlM (fpStep pl_data (fun u => Except.ok (r u))) acc =
        Except.ok (acc ++ l.filter (eligible r))
  | [], acc, _, _, _, _ => by
    rw [List.foldlM_nil, List.filter_nil, List.append_nil]; rfl
  | x :: l, acc, hget, hne, hnd, hdisj => by
    rw [List.foldlM_cons]
    have hndl : (l.map Prod.fst).Nodup := by
      rw [List.map_cons] at hnd; exact (List.nodup_cons.mp hnd).2
    have hhd : ¬ x.1 ∈ l.map Prod.fst := by
      rw [List.map_cons] at hnd; exact (List.nodup_cons.mp hnd).1
    by_cases h1 : x.2.first ≥ FIRST_MOVE
    · have hstep : fpStep pl_data (fun u => Except.ok (r u)) acc x =
          Except.ok acc := by
        unfold fpStep; rw [if_pos h1]
      rw [hstep, ok_bind]
      have hfil : eligible r x = false := by
        unfold eligible
        rw [decide_eq_false (by omega : ¬ x.2.first < FIRST_MOVE)]
        simp
      rw [List.filter_cons_of_neg (by simp [hfil])]
      exact find_p_go_filter pl_data r l acc
        (fun y hy => hget y (List.mem_cons_of_mem x hy))
        (fun y hy => hne y (List.mem_cons_of_mem x hy)) hndl
        (fun y hy => hdisj y (List.mem_cons_of_mem x hy))
    by_cases h2 : x.2.last < LAST_MOVE
    · have hstep : fpStep pl_data (fun u => Except.ok (r u)) acc x =
          Except.ok acc := by
        unfold fpStep; rw [if_neg h1, if_pos h2]
      rw [hstep, ok_bind]
      have hfil : eligible r x = false := by
        unfold eligible
        rw [decide_eq_false (by omega : ¬ LAST_MOVE ≤ x.2.last)]
        simp
      rw [List.filter_cons_of_neg (by simp [hfil])]
      exact find_p_go_filter pl_data r l acc
        (fun y hy => hget y (List.mem_cons_of_mem x hy))
        (fun y hy => hne y (List.mem_cons_of_mem x hy)) hndl
        (fun y hy => hdisj y (List.mem_cons_of_mem x hy))
    · have hxd : x.1.data ≠ [] := hne x (List.mem_cons_self x l)
      obtain ⟨c, cs, hcd⟩ : ∃ c cs, x.1.data = c :: cs := by
        cases hcd : x.1.data with
        | nil => exact absurd hcd hxd
        | cons c cs => exact ⟨c, cs, rfl⟩
      have hnap := not_a_pit_fetch_ok r x.1 c cs hcd
      cases hb : containsSub (r (player_url x.1)).text "Standard Pitching" with
      | false =>
        have hstep : fpStep pl_data (fun u => Except.ok (r u)) acc x =
            Except.ok acc := by
          unfold fpStep
          rw [if_neg h1, if_neg h2, hnap, hb]
          rfl
        rw [hstep, ok_bind]
        have hfil : eligible r x = false := by
          unfold eligible; rw [hb]; simp
        rw [List.filter_cons_of_neg (by simp [hfil])]
        exact find_p_go_filter pl_data r l acc
          (fun y hy => hget y (List.mem_cons_of_mem x hy))
          (fun y hy => hne y (List.mem_cons_of_mem x hy)) hndl
          (fun y hy => hdisj y (List.mem_cons_of_mem x hy))
      | true =>
        have hgx : dictGet? pl_data x.1 = some x.2 :=
          hget x (List.mem_cons_self x l)
        have hstep : fpStep pl_data (fun u => Except.ok (r u)) acc x =
            Except.ok (dictSet acc x.1 x.2) := by
          unfold fpStep
          rw [if_neg h1, if_neg h2, hnap, hb, ok_bind, hgx]
          rfl
        rw [hstep, ok_bind]
        have hfil : eligible r x = true := by
          unfold eligible
          rw [hb, decide_eq_true (by omega : x.2.first < FIRST_MOVE),
            decide_eq_true (by omega : LAST_MOVE ≤ x.2.last)]
          rfl
        rw [List.filter_cons_of_pos (by simp [hfil])]
        have hfresh : ¬ x.1 ∈ acc.map Prod.fst := hdisj x (List.mem_cons_self x l)
        rw [dictSet_of_not_mem acc x.1 x.2 hfresh]
        have hdisj2 : ∀ y ∈ l, ¬ y.1 ∈ (acc ++ [(x.1, x.2)]).map Prod.fst := by
          intro y hy
          rw [List.map_append]
          intro hmem
          rcases List.mem_append.mp hmem with hm1 | hm2
          · exact hdisj y (List.mem_cons_of_mem x hy) hm1
          · have : y.1 = x.1 := by simpa using hm2
            exact hhd (this ▸ List.mem_map_of_mem Prod.fst hy)
        rw [find_p_go_filter pl_data r l (acc ++ [(x.1, x.2)])
          (fun y hy => hget y (List.mem_cons_of_mem x hy))
          (fun y hy => hne y (List.mem_cons_of_mem x hy)) hndl hdisj2]
        rw [List.append_assoc]
        rfl

/-- C5: with every detail fetch succeeding (`r` gives each URL's page), the
Eligibility Filter returns exactly the directory entries whose career
window satisfies firstYear < FIRST_MOVE and lastYear >= LAST_MOVE and whose
detail page carries the "Standard Pitching" marker — no false positives and
no false negatives. -/
theorem find_p_exact (pl_data : Dict PlayerRec) (r : String → HttpResp)
    (hnd : (pl_data.map Prod.fst).Nodup)
    (hne : ∀ x ∈ pl_data, x.1.data ≠ []) :
    find_p_in_right_time_period pl_data (fun u => Except.ok (r u)) =
      Except.ok (pl_data.filter (eligible r)) ∧
    ∀ x, x ∈ pl_data.filter (eligible r) ↔
      x ∈ pl_data ∧ x.2.first < FIRST_MOVE ∧ LAST_MOVE ≤ x.2.last ∧
        containsSub (r (player_url x.1)).text "Standard Pitching" = true := by
  constructor
  · unfold find_p_in_right_time_period
    have hget : ∀ x ∈ pl_data, dictGet? pl_data x.1 = some x.2 := by
      intro x hx
      exact dictGet?_of_mem pl_data x.1 x.2 hnd hx
    have := find_p_go_filter pl_data r pl_data [] hget hne hnd (by simp)
    simpa using this
  · intro x
    rw [List.mem_filter]
    unfold eligible
    simp [Bool.and_eq_true, decide_eq_true_eq, and_assoc]

/-- C5 (witness): with firstYear = FIRST_MOVE - 1 the pitcher is retained,
with firstYear = FIRST_MOVE they are excluded. -/
theorem find_p_exact_wit :
    ((pdBoundary.map Prod.fst).Nodup) ∧
    (∀ x ∈ pdBoundary, x.1.data ≠ []) ∧
    find_p_in_right_time_period pdBoundary (fun u => Except.ok (rPitchPage u)) =
      Except.ok (pdBoundary.filter (eligible rPitchPage)) ∧
    pdBoundary.filter (eligible rPitchPage) = [("aaaaa01", recBoundaryIn)] :=
  ⟨by decide, by decide,
   (find_p_exact pdBoundary rPitchPage (by decide) (by decide)).1, by rfl⟩

/-! ### C6: contiguity and coverage of the three era ranges -/

theorem searchStep_split :
    ∀ (l : Dict PlayerRec) (i1 i2 : Int),
      List.foldl searchStep (i1, i2) l =
        (List.foldl minStep i1 l, List.foldl maxStep i2 l)
  | [], _, _ => rfl
  | e :: l, i1, i2 => by
    rw [List.foldl_cons, List.foldl_cons, List.foldl_cons]
    exact searchStep_split l (minStep i1 e) (maxStep i2 e)

theorem foldl_minStep_eq_spec (e : String × PlayerRec) (rest : Dict PlayerRec)
    (he : e.2.first ≤ FIRST_MOVE - 1) :
    List.foldl minStep (FIRST_MOVE - 1) (e :: rest) =
      spec_min_first (e :: rest) := by
  rw [List.foldl_cons]
  have h1 : minStep (FIRST_MOVE - 1) e = e.2.first := by
    unfold minStep; split <;> omega
  rw [h1]
  unfold spec_min_first
  refine List.foldl_ext _ _ e.2.first ?_
  intro a x _
  unfold minStep
  rw [Int.min_def]
  split_ifs <;> omega

theorem foldl_maxStep_eq_spec (e : String × PlayerRec) (rest : Dict PlayerRec)
    (he : LAST_MOVE ≤ e.2.last) :
    List.foldl maxStep LAST_MOVE (e :: rest) = spec_max_last (e :: rest) := by
  rw [List.foldl_cons]
  have h1 : maxStep LAST_MOVE e = e.2.last := by
    unfold maxStep; split <;> omega
  rw [h1]
  unfold spec_max_last
  refine List.foldl_ext _ _ e.2.last ?_
  intro a x _
  unfold maxStep
  rw [Int.max_def]
  split_ifs <;> omega

/-- For a non-empty window-respecting candidate mapping, the loop computes
exactly the candidates' minimum first year and maximum last year. -/
theorem search_minmax_eq (e : String × PlayerRec) (rest : Dict PlayerRec)
    (hwin : ∀ x ∈ e :: rest, x.2.first < FIRST_MOVE ∧ LAST_MOVE ≤ x.2.last) :
    search_minmax (e :: rest) =
      (spec_min_first (e :: rest), spec_max_last (e :: rest)) := by
  unfold search_minmax
  rw [searchStep_split]
  have he1 : e.2.first ≤ FIRST_MOVE - 1 := by
    have := (hwin e (List.mem_cons_self e rest)).1; omega
  have he2 : LAST_MOVE ≤ e.2.last := (hwin e (List.mem_cons_self e rest)).2
  rw [foldl_minStep_eq_spec e rest he1, foldl_maxStep_eq_spec e rest he2]

/-- C6: for every non-empty candidate set respecting the eligibility
window, the three derived TeamEra year ranges are contiguous (each range's
end is the next range's start) and their union is exactly the half-open
interval from the candidates' minimum firstYear to their maximum lastYear
plus one. -/
theorem yranges_contiguous_cover (pdata : Dict PlayerRec)
    (hne : pdata ≠ [])
    (hwin : ∀ e ∈ pdata, e.2.first < FIRST_MOVE ∧ LAST_MOVE ≤ e.2.last) :
    the_search_yranges pdata =
      [(spec_min_first pdata, FIRST_MOVE), (FIRST_MOVE, LAST_MOVE),
       (LAST_MOVE, spec_max_last pdata + 1)] ∧
    (∀ i r r2, (the_search_yranges pdata).get? i = some r →
        (the_search_yranges pdata).get? (i + 1) = some r2 → r.2 = r2.1) ∧
    (∀ y : Int, (∃ r ∈ the_search_yranges pdata, r.1 ≤ y ∧ y < r.2) ↔
        (spec_min_first pdata ≤ y ∧ y < spec_max_last pdata + 1)) := by
  obtain ⟨e, rest, rfl⟩ : ∃ e rest, pdata = e :: rest := by
    cases pdata with
    | nil => exact absurd rfl hne
    | cons e rest => exact ⟨e, rest, rfl⟩
  have hkey := search_minmax_eq e rest hwin
  have hball := search_fold_bounds (e :: rest) (FIRST_MOVE - 1, LAST_MOVE)
  have hb1 : spec_min_first (e :: rest) ≤ FIRST_MOVE - 1 := by
    have h0 : (search_minmax (e :: rest)).1 ≤ FIRST_MOVE - 1 := hball.1
    rw [hkey] at h0
    exact h0
  have hb2 : LAST_MOVE ≤ spec_max_last (e :: rest) := by
    have h0 : LAST_MOVE ≤ (search_minmax (e :: rest)).2 := hball.2
    rw [hkey] at h0
    exact h0
  have hyr : the_search_yranges (e :: rest) =
      [(spec_min_first (e :: rest), FIRST_MOVE), (FIRST_MOVE, LAST_MOVE),
       (LAST_MOVE, spec_max_last (e :: rest) + 1)] := by
    unfold the_search_yranges
    rw [hkey]
  refine ⟨hyr, ?_, ?_⟩
  · intro i r r2 h1 h2
    rw [hyr] at h1 h2
    match i with
    | 0 => cases h1; cases h2; rfl
    | 1 => cases h1; cases h2; rfl
    | 2 => cases h2
    | n + 3 => cases h1
  · intro y
    rw [hyr]
    constructor
    · rintro ⟨r, hr, hy1, hy2⟩
      simp only [List.mem_cons, List.not_mem_nil, or_false] at hr
      have hFM : FIRST_MOVE = 1953 := rfl
      have hLM : LAST_MOVE = 1966 := rfl
      rcases hr with rfl | rfl | rfl <;> (constructor <;> omega)
    · rintro ⟨hy1, hy2⟩
      by_cases hc1 : y < FIRST_MOVE
      · exact ⟨(spec_min_first (e :: rest), FIRST_MOVE),
          by simp, hy1, hc1⟩
      by_cases hc2 : y < LAST_MOVE
      · refine ⟨(FIRST_MOVE, LAST_MOVE), by simp, by omega, hc2⟩
      · refine ⟨(LAST_MOVE, spec_max_last (e :: rest) + 1),
          by simp, by omega, hy2⟩

/-- C6 (witness): for the single candidate Robin Roberts (1948-1966) the
ranges are [1948,1953), [1953,1966), [1966,1967). -/
theorem yranges_contiguous_cover_wit :
    ([("roberro01", robinRec)] : Dict PlayerRec) ≠ [] ∧
    (∀ e ∈ ([("roberro01", robinRec)] : Dict PlayerRec),
      e.2.first < FIRST_MOVE ∧ LAST_MOVE ≤ e.2.last) ∧
    the_search_yranges [("roberro01", robinRec)] =
      [(1948, 1953), (1953, 1966), (1966, 1967)] :=
  ⟨by decide, by decide,
   ((yranges_contiguous_cover [("roberro01", robinRec)] (by decide)
     (by decide)).1).trans (by rfl)⟩

/-! ### C9: rendering of the opponents column -/

/-- C9: every ledger entry produces its own row of the report (same
position, never omitted), carrying the looked-up pitcher name; an empty win
set renders as the literal "None", and a non-empty one as the comma-joined
city names of the deduplicated defeated eras. -/
theorem html_display_rows (answer : Dict (List String)) (pdata : Dict PlayerRec)
    (rows : List (String × String)) (i : Nat) (pid : String) (lst : List String)
    (hd : html_display answer pdata = Except.ok rows)
    (hi : answer.get? i = some (pid, lst)) :
    ∃ pr s, dictGet? pdata pid = some pr ∧ rows.get? i = some (pr.name, s) ∧
      (lst = [] → s = "None") ∧
      (∀ cl, (pySet lst).mapM full_name = Except.ok cl → lst ≠ [] →
        s = pyJoin ", " cl) := by
  unfold html_display at hd
  rcases mapM_ok_get answer rows i (pid, lst) hd hi with ⟨b, hbi, hfb⟩
  dsimp only at hfb
  cases hop : opponents_str lst with
  | error e => rw [hop, error_bind] at hfb; cases hfb
  | ok s =>
    rw [hop, ok_bind] at hfb
    cases hpd : dictGet? pdata pid with
    | none => rw [hpd] at hfb; cases hfb
    | some pr =>
      rw [hpd] at hfb
      cases hfb
      refine ⟨pr, s, rfl, hbi, ?_, ?_⟩
      · intro h0
        subst h0
        have hnone : opponents_str ([] : List String) = Except.ok "None" := by rfl
        injection hnone.symm.trans hop with h
        exact h.symm
      · intro cl hcl hne0
        have hspec := opponents_str_spec lst cl hcl
        rw [hop] at hspec
        have hclne : cl ≠ [] := by
          intro h0
          subst h0
          have hlen := mapM_ok_length (pySet lst) [] hcl
          have hps : pySet lst = [] :=
            List.length_eq_zero.mp (by simpa using hlen.symm)
          exact hne0 ((List.dedup_eq_nil lst).mp hps)
        rw [if_neg hclne] at hspec
        simpa using hspec

/-- C9 (witness): a candidate with an empty win set gets a row whose
opponents column is the literal "None". -/
theorem html_display_rows_wit :
    html_display [("xxpit01", [])] [("xxpit01", pitcherXRec)] =
      Except.ok [("Pitcher X", "None")] ∧
    ([("xxpit01", ([] : List String))] : Dict (List String)).get? 0 =
      some ("xxpit01", []) ∧
    (∃ pr s, dictGet? [("xxpit01", pitcherXRec)] "xxpit01" = some pr ∧
      ([("Pitcher X", "None")] : List (String × String)).get? 0 =
        some (pr.name, s) ∧
      (([] : List String) = [] → s = "None") ∧
      (∀ cl, (pySet ([] : List String)).mapM full_name = Except.ok cl →
        ([] : List String) ≠ [] → s = pyJoin ", " cl)) :=
  ⟨by rfl, rfl,
   html_display_rows [("xxpit01", [])] [("xxpit01", pitcherXRec)]
     [("Pitcher X", "None")] 0 "xxpit01" [] (by rfl) rfl⟩

end Braves
